import Mathlib

set_option maxRecDepth 4000

/-- Model of Rust byte strings (`String` / `&str` at the byte level): a list of byte values. -/
abbrev RStr : Type := List Nat

/-- Byte list of an ASCII Lean string literal, used to write the constants of the source. -/
def bytes (s : String) : RStr := s.data.map Char.toNat

/-- Error taxonomy of `AuthError` in auth.rs; the display payload strings of the Rust enum
carry only external error text and are elided. -/
inductive AuthError where
  | invalidCode
  | expiredCode
  | pkceFailed
  | storageError
  | cryptoError
  | invalidUrl
  | deepLinkError
  deriving DecidableEq, Inhabited

/-- Rust struct `DeviceInfo` of auth.rs. -/
structure DeviceInfo where
  device_id : RStr
  device_name : RStr
  platform : RStr
  user_agent : Option RStr
  deriving DecidableEq, Inhabited

/-- Rust struct `AuthToken` of auth.rs; `DateTime<Utc>` is modelled as seconds (Nat). -/
structure AuthToken where
  access_token : RStr
  refresh_token : RStr
  expires_at : Nat
  token_type : RStr
  scope : Option RStr
  deriving DecidableEq, Inhabited

/-- Rust struct `PKCEChallenge` of auth.rs. -/
structure PKCEChallenge where
  verifier : RStr
  challenge : RStr
  method : RStr
  expires_at : Nat
  deriving DecidableEq, Inhabited

/-- Rust struct `AuthSession` of auth.rs. -/
structure AuthSession where
  id : RStr
  user_id : Option RStr
  email : Option RStr
  wallet_address : Option RStr
  tokens : Option AuthToken
  pkce : Option PKCEChallenge
  state : RStr
  created_at : Nat
  expires_at : Nat
  device_info : DeviceInfo
  deriving DecidableEq, Inhabited

/-- The tauri-plugin-store document backing `AuthManager`: string keys to string values.
Only string values are ever written by auth.rs, so values are modelled as `RStr`. -/
structure StoreState where
  entries : List (RStr × RStr)
  deriving DecidableEq, Inhabited

def emptyStore : StoreState := ⟨[]⟩

def assocGet : List (RStr × RStr) → RStr → Option RStr
  | [], _ => none
  | (k, v) :: rest, key => if k = key then some v else assocGet rest key

def assocDelete : List (RStr × RStr) → RStr → List (RStr × RStr)
  | [], _ => []
  | (k, v) :: rest, key =>
      if k = key then assocDelete rest key else (k, v) :: assocDelete rest key

/-- Operation `store.get(key)` of tauri-plugin-store. -/
def storeGet (st : StoreState) (key : RStr) : Option RStr := assocGet st.entries key

/-- Operation `store.set(key, value)` of tauri-plugin-store: binds `key` to `value`, replacing any
previous binding. -/
def storeSet (st : StoreState) (key value : RStr) : StoreState :=
  ⟨(key, value) :: assocDelete st.entries key⟩

/-- Operation `store.delete(key)` of tauri-plugin-store. -/
def storeDelete (st : StoreState) (key : RStr) : StoreState := ⟨assocDelete st.entries key⟩

theorem assocGet_delete_self (e : List (RStr × RStr)) (k : RStr) :
    assocGet (assocDelete e k) k = none := by
  induction e with
  | nil => rfl
  | cons hd tl ih =>
      obtain ⟨k0, v0⟩ := hd
      by_cases h : k0 = k
      · simp [assocDelete, h, ih]
      · simp [assocDelete, assocGet, h, ih]

theorem assocGet_delete_other (e : List (RStr × RStr)) (k k' : RStr) (hne : k' ≠ k) :
    assocGet (assocDelete e k) k' = assocGet e k' := by
  induction e with
  | nil => rfl
  | cons hd tl ih =>
      obtain ⟨k0, v0⟩ := hd
      by_cases h : k0 = k
      · subst h
        have : ¬ k0 = k' := fun h2 => hne h2.symm
        simp [assocDelete, assocGet, this, ih]
      · simp only [assocDelete, if_neg h]
        by_cases h2 : k0 = k'
        · simp [assocGet, h2]
        · simp [assocGet, h2, ih]

theorem storeGet_set_self (st : StoreState) (k v : RStr) :
    storeGet (storeSet st k v) k = some v := by
  simp [storeGet, storeSet, assocGet]

theorem storeGet_set_other (st : StoreState) (k v k' : RStr) (hne : k' ≠ k) :
    storeGet (storeSet st k v) k' = storeGet st k' := by
  have : ¬ k = k' := fun h => hne h.symm
  simp [storeGet, storeSet, assocGet, this, assocGet_delete_other st.entries k k' hne]

/-- Keystream application of `AuthManager::xor_encrypt`: byte `i` of the data is xored with
byte `i mod key.len()` of the key (`key.iter().cycle()`). -/
def xorCycle (key : List Nat) : Nat → List Nat → List Nat
  | _, [] => []
  | i, d :: rest => (d ^^^ key.getD (i % key.length) 0) :: xorCycle key (i + 1) rest

/-- Model of `AuthManager::xor_encrypt`. When the key is empty, `zip` with the empty cycled iterator
yields the empty vector, as in the source. -/
def xor_encrypt (data key : List Nat) : List Nat :=
  if key.length = 0 then [] else xorCycle key 0 data

theorem xorCycle_xorCycle (key : List Nat) :
    ∀ (i : Nat) (data : List Nat), xorCycle key i (xorCycle key i data) = data := by
  intro i data
  induction data generalizing i with
  | nil => rfl
  | cons d rest ih => simp [xorCycle, Nat.xor_cancel_right, ih]

theorem xor_encrypt_involutive (data key : List Nat) (hk : key ≠ []) :
    xor_encrypt (xor_encrypt data key) key = data := by
  have hlen : key.length ≠ 0 := by simpa using hk
  simp [xor_encrypt, hlen, xorCycle_xorCycle]

theorem xorCycle_length (key : List Nat) :
    ∀ (i : Nat) (data : List Nat), (xorCycle key i data).length = data.length := by
  intro i data
  induction data generalizing i with
  | nil => rfl
  | cons d rest ih => simp [xorCycle, ih]

theorem xorCycle_getD (key : List Nat) :
    ∀ (i j : Nat) (data : List Nat), j < data.length →
      (xorCycle key i data).getD j 0 = data.getD j 0 ^^^ key.getD ((i + j) % key.length) 0 := by
  intro i j data
  induction data generalizing i j with
  | nil => intro h; exact absurd h (by simp)
  | cons d rest ih =>
      intro hj
      cases j with
      | zero => simp [xorCycle]
      | succ j =>
          have hj' : j < rest.length := by simpa using hj
          have := ih (i + 1) j hj'
          simp only [xorCycle, List.getD_cons_succ, this]
          ring_nf

/-- Accumulator loop of `constant_time_eq`: `result |= byte_a ^ byte_b` over zipped bytes. -/
def ctFold : Nat → List (Nat × Nat) → Nat
  | acc, [] => acc
  | acc, (a, b) :: rest => ctFold (acc ||| (a ^^^ b)) rest

/-- Model of `constant_time_eq` of auth.rs: false on byte-length mismatch, else xor-accumulate and
compare the accumulator to zero. -/
def constant_time_eq (a b : RStr) : Bool :=
  if a.length ≠ b.length then false
  else decide (ctFold 0 (a.zip b) = 0)

theorem nat_or_eq_zero (a b : Nat) : a ||| b = 0 ↔ a = 0 ∧ b = 0 := by
  constructor
  · intro h
    have ha : ∀ i, a.testBit i = false := by
      intro i
      have := congrArg (fun n => Nat.testBit n i) h
      simp only [Nat.testBit_lor, Nat.zero_testBit, Bool.or_eq_false_iff] at this
      exact this.1
    have hb : ∀ i, b.testBit i = false := by
      intro i
      have := congrArg (fun n => Nat.testBit n i) h
      simp only [Nat.testBit_lor, Nat.zero_testBit, Bool.or_eq_false_iff] at this
      exact this.2
    constructor
    · exact Nat.eq_of_testBit_eq (fun i => by simp [ha i, Nat.zero_testBit])
    · exact Nat.eq_of_testBit_eq (fun i => by simp [hb i, Nat.zero_testBit])
  · rintro ⟨rfl, rfl⟩; rfl

theorem ctFold_eq_zero (l : List (Nat × Nat)) :
    ∀ acc : Nat, (ctFold acc l = 0 ↔ acc = 0 ∧ ∀ p ∈ l, p.1 = p.2) := by
  induction l with
  | nil => intro acc; simp [ctFold]
  | cons hd tl ih =>
      intro acc
      obtain ⟨a, b⟩ := hd
      simp only [ctFold, ih (acc ||| (a ^^^ b))]
      constructor
      · rintro ⟨h1, h2⟩
        have h3 : acc = 0 ∧ (a ^^^ b) = 0 := (nat_or_eq_zero acc (a ^^^ b)).mp h1
        refine ⟨h3.1, ?_⟩
        intro p hp
        rcases List.mem_cons.mp hp with h | h
        · subst h; exact Nat.xor_eq_zero.mp h3.2
        · exact h2 p h
      · rintro ⟨h1, h2⟩
        have hab : a = b := h2 (a, b) (List.mem_cons_self _ _)
        refine ⟨?_, fun p hp => h2 p (List.mem_cons_of_mem _ hp)⟩
        simp [h1, hab]

theorem zip_pointwise_eq (a : List Nat) :
    ∀ b : List Nat, a.length = b.length → ((∀ p ∈ a.zip b, p.1 = p.2) ↔ a = b) := by
  induction a with
  | nil =>
      intro b hb
      cases b with
      | nil => simp
      | cons x xs => exact absurd hb (by simp)
  | cons x xs ih =>
      intro b hb
      cases b with
      | nil => exact absurd hb (by simp)
      | cons y ys =>
          have hlen : xs.length = ys.length := by simpa using hb
          constructor
          · intro h
            have hx : x = y := h (x, y) (by simp [List.zip_cons_cons])
            have : xs = ys := (ih ys hlen).mp (by
              intro p hp
              exact h p (by simp [List.zip_cons_cons, hp]))
            simp [hx, this]
          · intro h
            injection h with h1 h2
            subst h1; subst h2
            intro p hp
            rcases List.mem_cons.mp hp with h | h
            · simp [Prod.ext_iff] at h; simp [h.1, h.2]
            · exact (ih xs rfl).mpr rfl p h

/-- Behavioural characterisation of `constant_time_eq`: it decides byte-list equality. -/
theorem constant_time_eq_iff (a b : RStr) : constant_time_eq a b = true ↔ a = b := by
  unfold constant_time_eq
  by_cases hlen : a.length = b.length
  · rw [if_neg (by simpa using hlen)]
    simp only [decide_eq_true_eq]
    rw [ctFold_eq_zero]
    constructor
    · rintro ⟨_, h⟩
      exact (zip_pointwise_eq a b hlen).mp h
    · intro h
      exact ⟨rfl, (zip_pointwise_eq a b hlen).mpr h⟩
  · rw [if_pos (by simpa using hlen)]
    constructor
    · intro h; simp at h
    · intro h; exact absurd (congrArg List.length h) hlen

/-- The unreserved charset of `generate_secure_random_string` in auth.rs, as bytes. -/
def CHARSET : RStr :=
  bytes ("ABCDEFGHIJKLMNOPQRSTUVWXYZabcdefghijklmnopqrstuvwxyz0123456789-._~")

/-- Model of `generate_secure_random_string(length)`: character `i` is `CHARSET[draw_i mod 66]`.
The stream of `OsRng::next_u32` draws is an explicit parameter `rng`. -/
def generate_secure_random_string (length : Nat) (rng : Nat → Nat) : RStr :=
  (List.range length).map (fun i => CHARSET.getD (rng i % CHARSET.length) 0)

theorem generate_secure_random_string_length (length : Nat) (rng : Nat → Nat) :
    (generate_secure_random_string length rng).length = length := by
  simp [generate_secure_random_string]

theorem generate_secure_random_string_mem (length : Nat) (rng : Nat → Nat) :
    ∀ c ∈ generate_secure_random_string length rng, c ∈ CHARSET := by
  intro c hc
  simp only [generate_secure_random_string, List.mem_map] at hc
  obtain ⟨i, _, rfl⟩ := hc
  have hlt : rng i % CHARSET.length < CHARSET.length :=
    Nat.mod_lt _ (by rw [CHARSET]; decide)
  rw [List.getD_eq_getElem _ _ hlt]
  exact List.getElem_mem _

/-- Model of `generate_pkce_challenge` of auth.rs. The SHA-256 digest and the unpadded URL-safe
base64 encoder are external primitives and appear as the parameters `sha256` and
`b64url`; the entropy stream is `rng` and the clock reading is `now` (seconds).
The `Result` wrapper of the source is dropped: the body has no failing path. -/
def generate_pkce_challenge (sha256 : RStr → List Nat) (b64url : List Nat → RStr)
    (rng : Nat → Nat) (now : Nat) : PKCEChallenge :=
  let verifier := generate_secure_random_string 64 rng
  { verifier := verifier
    challenge := b64url (sha256 verifier)
    method := bytes ("S256")
    expires_at := now + 600 }

/-- Model of `verify_pkce_challenge` of auth.rs: recompute the digest of the verifier and compare
with `constant_time_eq`. The infallible `Result` wrapper of the source is dropped. -/
def verify_pkce_challenge (sha256 : RStr → List Nat) (b64url : List Nat → RStr)
    (verifier challenge : RStr) : Bool :=
  constant_time_eq (b64url (sha256 verifier)) challenge

/-- The store key `format!("session_{}", id)`. -/
def sessionKeyOf (id : RStr) : RStr := bytes ("session_") ++ id

/-- The store key of the persisted key-derivation salt. -/
def saltKey : RStr := bytes ("key_derivation_salt")

/-- Model of `AuthManager::get_or_create_salt`: read the persisted salt, else persist the fresh
CSPRNG salt `freshSalt` and return it. -/
def get_or_create_salt (st : StoreState) (freshSalt : RStr) : RStr × StoreState :=
  match storeGet st saltKey with
  | some salt => (salt, st)
  | none => (freshSalt, storeSet st saltKey freshSalt)

/-- Model of `AuthManager::store_session_encrypted`. `serialize` models `serde_json::to_string`
composed with `as_bytes` (infallible on these types), `deriveKey` models
`AuthManager::derive_key` with the manager's salt fixed, and `encode` models standard
base64 encoding. The durable `store.save()` is the identity in this persistence model. -/
def store_session_encrypted (serialize : AuthSession → List Nat)
    (deriveKey : RStr → Except AuthError (List Nat)) (encode : List Nat → RStr)
    (st : StoreState) (session : AuthSession) (passphrase : RStr) :
    Except AuthError StoreState :=
  match deriveKey passphrase with
  | .error e => .error e
  | .ok key =>
      let encrypted := xor_encrypt (serialize session) key
      .ok (storeSet st (sessionKeyOf session.id) (encode encrypted))

/-- Model of `AuthManager::retrieve_session_encrypted`. `decode` models standard base64 decoding
(failure is a StorageError) and `deserialize` models `String::from_utf8` followed by
`serde_json::from_str` (failure of either step is a StorageError). The key is derived
before the lookup, as in the source, and a missing entry yields `ok none`. -/
def retrieve_session_encrypted (deserialize : List Nat → Option AuthSession)
    (deriveKey : RStr → Except AuthError (List Nat)) (decode : RStr → Option (List Nat))
    (st : StoreState) (session_id : RStr) (passphrase : RStr) :
    Except AuthError (Option AuthSession) :=
  match deriveKey passphrase with
  | .error e => .error e
  | .ok key =>
      match storeGet st (sessionKeyOf session_id) with
      | none => .ok none
      | some encoded =>
          match decode encoded with
          | none => .error .storageError
          | some encrypted =>
              match deserialize (xor_encrypt encrypted key) with
              | none => .error .storageError
              | some session => .ok (some session)

/-- Model of `AuthManager::clear_session`: delete the one namespaced entry, then flush. -/
def clear_session (st : StoreState) (session_id : RStr) : StoreState :=
  storeDelete st (sessionKeyOf session_id)

/-- Model of `AuthManager::clear_all_sessions`: the source calls `store.clear()`, which empties
the whole document, then flushes. -/
def clear_all_sessions (st : StoreState) : StoreState := ⟨[]⟩

/-- Model of a parsed `url::Url` as far as auth.rs and deep_link.rs inspect it. -/
structure ParsedUrl where
  scheme : RStr
  host : Option RStr
  path : RStr
  queryPairs : List (RStr × RStr)
  deriving DecidableEq, Inhabited

/-- Lookup in the `HashMap` built from `query_pairs()`: insertion overwrites, so the last
occurrence of a key wins. -/
def paramsGet (pairs : List (RStr × RStr)) (k : RStr) : Option RStr :=
  match pairs with
  | [] => none
  | (k0, v0) :: rest =>
      match paramsGet rest k with
      | some v => some v
      | none => if k0 = k then some v0 else none

/-- Model of `generate_auth_session` of auth.rs. Randomness and clocks appear as parameters:
`uuid` is the `Uuid::new_v4` draw, `rngState` and `rngVerifier` the `OsRng` streams for
the anti-CSRF state and the PKCE verifier, `nowPkce`, `now1` and `now2` the successive
`Utc::now()` readings used for the challenge expiry, `created_at` and `expires_at`. -/
def generate_auth_session (serialize : AuthSession → List Nat)
    (deriveKey : RStr → Except AuthError (List Nat)) (encode : List Nat → RStr)
    (sha256 : RStr → List Nat) (b64url : List Nat → RStr)
    (uuid : RStr) (rngState rngVerifier : Nat → Nat) (nowPkce now1 now2 : Nat)
    (device_info : DeviceInfo) (st : StoreState) :
    Except AuthError (AuthSession × StoreState) :=
  let state := generate_secure_random_string 32 rngState
  let pkce := generate_pkce_challenge sha256 b64url rngVerifier nowPkce
  let session : AuthSession :=
    { id := uuid
      user_id := none
      email := none
      wallet_address := none
      tokens := none
      pkce := some pkce
      state := state
      created_at := now1
      expires_at := now2 + 600
      device_info := device_info }
  let passphrase := session.device_info.device_id ++ bytes ("-") ++ session.state
  match store_session_encrypted serialize deriveKey encode st session passphrase with
  | .error e => .error e
  | .ok st' => .ok (session, st')

/-- Model of `handle_auth_callback` of auth.rs. `parseUrl` models `url::Url::parse` (failure is an
InvalidUrl), `uuid` the fresh `Uuid::new_v4` draw, `now1`/`now2` the two `Utc::now()`
readings, `osName` the value of `std::env::consts::OS`. The `auth_manager` argument of
the source is never used; the store parameter `st` mirrors that. -/
def handle_auth_callback (parseUrl : RStr → Option ParsedUrl) (uuid : RStr)
    (now1 now2 : Nat) (osName : RStr) (url : RStr) (st : StoreState) :
    Except AuthError AuthSession :=
  match parseUrl url with
  | none => .error .invalidUrl
  | some u =>
      match paramsGet u.queryPairs (bytes ("code")) with
      | none => .error .invalidCode
      | some _auth_code =>
          match paramsGet u.queryPairs (bytes ("state")) with
          | none => .error .invalidCode
          | some state =>
              .ok { id := uuid
                    user_id := some (bytes ("user_123"))
                    email := some (bytes ("user@example.com"))
                    wallet_address := none
                    tokens := none
                    pkce := none
                    state := state
                    created_at := now1
                    expires_at := now2 + 86400
                    device_info :=
                      { device_id := bytes ("desktop")
                        device_name := bytes ("Desktop App")
                        platform := osName
                        user_agent := none } }

/-- Model of `get_auth_session` of auth.rs: rebuild the passphrase `device_id + "-" + state` and
delegate to `retrieve_session_encrypted`. -/
def get_auth_session (deserialize : List Nat → Option AuthSession)
    (deriveKey : RStr → Except AuthError (List Nat)) (decode : RStr → Option (List Nat))
    (st : StoreState) (session_id device_id state : RStr) :
    Except AuthError (Option AuthSession) :=
  retrieve_session_encrypted deserialize deriveKey decode st session_id
    (device_id ++ bytes ("-") ++ state)

/-- Model of `open_auth_url` of deep_link.rs. `parseUrl` models `url::Url::parse` and `opener`
models `tauri_plugin_opener::open_url` with its error already mapped to DeepLinkError. -/
def open_auth_url (parseUrl : RStr → Option ParsedUrl)
    (opener : RStr → Except AuthError Unit) (url : RStr) : Except AuthError Unit :=
  match parseUrl url with
  | none => .error .invalidUrl
  | some u =>
      if u.scheme = bytes ("https") then opener url
      else if u.scheme = bytes ("http") then
        match u.host with
        | some host =>
            if host ≠ bytes ("localhost") ∧ host ≠ bytes ("127.0.0.1") then
              .error .invalidUrl
            else opener url
        | none => .error .invalidUrl
      else .error .invalidUrl

/-- Length-prefixed byte-string encoder of the concrete witness codec. -/
def encStr (s : RStr) : List Nat := s.length :: s

def encOptStr : Option RStr → List Nat
  | none => [0]
  | some s => 1 :: encStr s

def encToken (t : AuthToken) : List Nat :=
  encStr t.access_token ++ encStr t.refresh_token ++ [t.expires_at] ++
    encStr t.token_type ++ encOptStr t.scope

def encOptToken : Option AuthToken → List Nat
  | none => [0]
  | some t => 1 :: encToken t

def encPkce (p : PKCEChallenge) : List Nat :=
  encStr p.verifier ++ encStr p.challenge ++ encStr p.method ++ [p.expires_at]

def encOptPkce : Option PKCEChallenge → List Nat
  | none => [0]
  | some p => 1 :: encPkce p

def encDevice (d : DeviceInfo) : List Nat :=
  encStr d.device_id ++ encStr d.device_name ++ encStr d.platform ++ encOptStr d.user_agent

/-- Concrete executable session serializer standing in for `serde_json::to_string` in
witnesses: an injective canonical byte encoding of `AuthSession`. -/
def serializeSession (s : AuthSession) : List Nat :=
  encStr s.id ++ encOptStr s.user_id ++ encOptStr s.email ++ encOptStr s.wallet_address ++
    encOptToken s.tokens ++ encOptPkce s.pkce ++ encStr s.state ++
    [s.created_at, s.expires_at] ++ encDevice s.device_info

def decStr : List Nat → Option (RStr × List Nat)
  | [] => none
  | n :: rest => if n ≤ rest.length then some (rest.take n, rest.drop n) else none

def decNat : List Nat → Option (Nat × List Nat)
  | [] => none
  | n :: rest => some (n, rest)

def decOptStr : List Nat → Option (Option RStr × List Nat)
  | 0 :: rest => some (none, rest)
  | 1 :: rest => (decStr rest).map (fun p => (some p.1, p.2))
  | _ => none

def decToken (d : List Nat) : Option (AuthToken × List Nat) :=
  (decStr d).bind fun p1 =>
  (decStr p1.2).bind fun p2 =>
  (decNat p2.2).bind fun p3 =>
  (decStr p3.2).bind fun p4 =>
  (decOptStr p4.2).bind fun p5 =>
  some ({ access_token := p1.1, refresh_token := p2.1, expires_at := p3.1,
          token_type := p4.1, scope := p5.1 }, p5.2)

def decOptToken : List Nat → Option (Option AuthToken × List Nat)
  | 0 :: rest => some (none, rest)
  | 1 :: rest => (decToken rest).map (fun p => (some p.1, p.2))
  | _ => none

def decPkce (d : List Nat) : Option (PKCEChallenge × List Nat) :=
  (decStr d).bind fun p1 =>
  (decStr p1.2).bind fun p2 =>
  (decStr p2.2).bind fun p3 =>
  (decNat p3.2).bind fun p4 =>
  some ({ verifier := p1.1, challenge := p2.1, method := p3.1, expires_at := p4.1 }, p4.2)

def decOptPkce : List Nat → Option (Option PKCEChallenge × List Nat)
  | 0 :: rest => some (none, rest)
  | 1 :: rest => (decPkce rest).map (fun p => (some p.1, p.2))
  | _ => none

def decDevice (d : List Nat) : Option (DeviceInfo × List Nat) :=
  (decStr d).bind fun p1 =>
  (decStr p1.2).bind fun p2 =>
  (decStr p2.2).bind fun p3 =>
  (decOptStr p3.2).bind fun p4 =>
  some ({ device_id := p1.1, device_name := p2.1, platform := p3.1,
          user_agent := p4.1 }, p4.2)

/-- Concrete executable session parser standing in for `from_utf8` plus
`serde_json::from_str` in witnesses: inverse of `serializeSession`, rejecting any
trailing bytes. -/
def deserializeSession (d : List Nat) : Option AuthSession :=
  (decStr d).bind fun q1 =>
  (decOptStr q1.2).bind fun q2 =>
  (decOptStr q2.2).bind fun q3 =>
  (decOptStr q3.2).bind fun q4 =>
  (decOptToken q4.2).bind fun q5 =>
  (decOptPkce q5.2).bind fun q6 =>
  (decStr q6.2).bind fun q7 =>
  (decNat q7.2).bind fun q8 =>
  (decNat q8.2).bind fun q9 =>
  (decDevice q9.2).bind fun q10 =>
  if q10.2 = [] then
    some { id := q1.1, user_id := q2.1, email := q3.1, wallet_address := q4.1,
           tokens := q5.1, pkce := q6.1, state := q7.1, created_at := q8.1,
           expires_at := q9.1, device_info := q10.1 }
  else none

/-- Toy key-derivation function for witnesses: the passphrase bytes themselves. -/
def toyDeriveKey (p : RStr) : Except AuthError (List Nat) := .ok p

/-- Identity stand-in for base64 encoding in witnesses. -/
def idEncode (b : List Nat) : RStr := b

/-- Total stand-in for base64 decoding in witnesses. -/
def someDecode (b : RStr) : Option (List Nat) := some b

/-- Flip bit `k` of byte `i` of a byte list. -/
def flipBit (l : List Nat) (i k : Nat) : List Nat := l.set i (l.getD i 0 ^^^ 2 ^ k)

theorem flipBit_ne (l : List Nat) (i k : Nat) (hi : i < l.length) : flipBit l i k ≠ l := by
  intro h
  have hset : (l.set i (l.getD i 0 ^^^ 2 ^ k)).getD i 0 = l.getD i 0 ^^^ 2 ^ k := by
    rw [List.getD_eq_getElem _ _ (by simpa using hi)]
    simp [List.getElem_set_self]
  rw [flipBit] at h
  rw [h] at hset
  have h2 : (2 : Nat) ^ k = 0 := by
    have := congrArg (fun x => l.getD i 0 ^^^ x) hset.symm
    simpa [Nat.xor_cancel_left] using this
  exact absurd h2 (Nat.pos_iff_ne_zero.mp (Nat.pos_pow_of_pos k (by norm_num))).elim

theorem constant_time_eq_ne (a b : RStr) (h : a ≠ b) : constant_time_eq a b = false := by
  cases hc : constant_time_eq a b
  · rfl
  · exact absurd ((constant_time_eq_iff a b).mp hc) h

/-- C9: `constant_time_eq` returns true on equal strings (which have equal length), false
on unequal strings of equal length, and false on strings of unequal length: it decides
byte-string equality, via the length check followed by the xor-accumulator test. -/
theorem C9_constant_time_eq_decides_equality (a b : RStr) :
    constant_time_eq a b = true ↔ a = b :=
  constant_time_eq_iff a b

/-- C3: a challenge produced by `generate_pkce_challenge` verifies against its own
verifier, and flipping any single bit of the verifier or of the challenge makes
`verify_pkce_challenge` return false. The external SHA-256 digest and base64url encoder
are injective parameters (the idealisation under which a one-bit digest-input change
cannot collide). -/
theorem C3_pkce_verify_roundtrip_and_mutation
    (sha256 : RStr → List Nat) (b64url : List Nat → RStr) (rng : Nat → Nat)
    (now i k j m : Nat)
    (hsha : Function.Injective sha256) (hb64 : Function.Injective b64url)
    (hi : i < (generate_pkce_challenge sha256 b64url rng now).verifier.length)
    (hj : j < (generate_pkce_challenge sha256 b64url rng now).challenge.length) :
    verify_pkce_challenge sha256 b64url
        (generate_pkce_challenge sha256 b64url rng now).verifier
        (generate_pkce_challenge sha256 b64url rng now).challenge = true ∧
    verify_pkce_challenge sha256 b64url
        (flipBit (generate_pkce_challenge sha256 b64url rng now).verifier i k)
        (generate_pkce_challenge sha256 b64url rng now).challenge = false ∧
    verify_pkce_challenge sha256 b64url
        (generate_pkce_challenge sha256 b64url rng now).verifier
        (flipBit (generate_pkce_challenge sha256 b64url rng now).challenge j m) = false := by
  refine ⟨(constant_time_eq_iff _ _).mpr rfl, ?_, ?_⟩
  · apply constant_time_eq_ne
    exact hb64.ne (hsha.ne (flipBit_ne _ i k hi))
  · apply constant_time_eq_ne
    exact (flipBit_ne _ j m hj).symm

theorem C3_witness :
    verify_pkce_challenge (fun l => l) (fun l => l)
        (generate_pkce_challenge (fun l => l) (fun l => l) (fun _ => 0) 0).verifier
        (generate_pkce_challenge (fun l => l) (fun l => l) (fun _ => 0) 0).challenge
        = true ∧
    verify_pkce_challenge (fun l => l) (fun l => l)
        (flipBit (generate_pkce_challenge (fun l => l) (fun l => l) (fun _ => 0) 0).verifier
          0 0)
        (generate_pkce_challenge (fun l => l) (fun l => l) (fun _ => 0) 0).challenge
        = false ∧
    verify_pkce_challenge (fun l => l) (fun l => l)
        (generate_pkce_challenge (fun l => l) (fun l => l) (fun _ => 0) 0).verifier
        (flipBit (generate_pkce_challenge (fun l => l) (fun l => l) (fun _ => 0) 0).challenge
          0 0)
        = false :=
  C3_pkce_verify_roundtrip_and_mutation (fun l => l) (fun l => l) (fun _ => 0) 0 0 0 0 0
    (fun _ _ h => h) (fun _ _ h => h) (by decide) (by decide)

theorem saltKey_ne_sessionKey (id : RStr) : saltKey ≠ sessionKeyOf id := by
  intro h
  have h0 : saltKey.getD 0 0 = (sessionKeyOf id).getD 0 0 := by rw [h]
  have h1 : saltKey.getD 0 0 = 107 := rfl
  have h2 : (sessionKeyOf id).getD 0 0 = 115 := rfl
  rw [h1, h2] at h0
  exact absurd h0 (by norm_num)

def storeC5 : StoreState :=
  storeSet (storeSet emptyStore saltKey (bytes ("salt0")))
    (sessionKeyOf (bytes ("abc"))) (bytes ("blob"))

/-- C5 counterexample: on a store holding the salt and one session entry,
`clear_all_sessions` does not leave the `key_derivation_salt` entry unchanged — the
source calls `store.clear()`, which removes it. -/
theorem C5_counterexample :
    storeGet storeC5 saltKey = some (bytes ("salt0")) ∧
      storeGet (clear_all_sessions storeC5) saltKey = none := by
  constructor
  · decide
  · rfl

/-- C5 amended: `clear_all_sessions` empties the whole persisted store, removing every
entry including `key_derivation_salt`; only `clear_session` is limited to the one
namespaced `session_<id>` entry and always leaves the salt entry unchanged. -/
theorem C5_clear_all_wipes_salt_clear_session_preserves (st : StoreState) :
    (∀ k, storeGet (clear_all_sessions st) k = none) ∧
      (∀ id, storeGet (clear_session st id) saltKey = storeGet st saltKey) := by
  constructor
  · intro k; rfl
  · intro id
    exact assocGet_delete_other st.entries (sessionKeyOf id) saltKey
      (saltKey_ne_sessionKey id)

/-- C6: `handle_auth_callback` fails with InvalidUrl when the URL does not parse, and
with InvalidCode when the query parameters lack `code` or lack `state`. -/
theorem C6_callback_error_paths (parseUrl : RStr → Option ParsedUrl) (uuid : RStr)
    (now1 now2 : Nat) (osName url : RStr) (st : StoreState) :
    (parseUrl url = none →
      handle_auth_callback parseUrl uuid now1 now2 osName url st = .error .invalidUrl) ∧
    (∀ u, parseUrl url = some u → paramsGet u.queryPairs (bytes ("code")) = none →
      handle_auth_callback parseUrl uuid now1 now2 osName url st = .error .invalidCode) ∧
    (∀ u c, parseUrl url = some u → paramsGet u.queryPairs (bytes ("code")) = some c →
      paramsGet u.queryPairs (bytes ("state")) = none →
      handle_auth_callback parseUrl uuid now1 now2 osName url st = .error .invalidCode) := by
  refine ⟨?_, ?_, ?_⟩
  · intro h
    simp [handle_auth_callback, h]
  · intro u hu hcode
    simp [handle_auth_callback, hu, hcode]
  · intro u c hu hcode hstate
    simp [handle_auth_callback, hu, hcode, hstate]

def w6Url : ParsedUrl :=
  { scheme := bytes ("https"), host := none, path := [], queryPairs := [] }

theorem C6_witness :
    handle_auth_callback (fun _ => some w6Url) [] 0 0 [] [] emptyStore =
      .error .invalidCode :=
  (C6_callback_error_paths (fun _ => some w6Url) [] 0 0 [] [] emptyStore).2.1
    w6Url rfl rfl

/-- C10: when `code` and `state` are both present, `handle_auth_callback` ignores the
store entirely and fabricates a fresh placeholder session: user `user_123`, email
`user@example.com`, no tokens, no pkce, the fresh uuid as id, a 24-hour expiry and the
hardcoded desktop device info, with the received state echoed back unverified. -/
theorem C10_callback_fabricates_session (parseUrl : RStr → Option ParsedUrl)
    (uuid : RStr) (now1 now2 : Nat) (osName url : RStr) (st : StoreState) :
    (∀ st2, handle_auth_callback parseUrl uuid now1 now2 osName url st =
        handle_auth_callback parseUrl uuid now1 now2 osName url st2) ∧
    (∀ u c s0, parseUrl url = some u →
      paramsGet u.queryPairs (bytes ("code")) = some c →
      paramsGet u.queryPairs (bytes ("state")) = some s0 →
      handle_auth_callback parseUrl uuid now1 now2 osName url st =
        .ok { id := uuid
              user_id := some (bytes ("user_123"))
              email := some (bytes ("user@example.com"))
              wallet_address := none
              tokens := none
              pkce := none
              state := s0
              created_at := now1
              expires_at := now2 + 86400
              device_info :=
                { device_id := bytes ("desktop")
                  device_name := bytes ("Desktop App")
                  platform := osName
                  user_agent := none } }) := by
  constructor
  · intro st2; rfl
  · intro u c s0 hu hcode hstate
    simp [handle_auth_callback, hu, hcode, hstate]

def w10Url : ParsedUrl :=
  { scheme := bytes ("https"), host := none, path := [],
    queryPairs := [(bytes ("code"), [1]), (bytes ("state"), [2])] }

theorem C10_witness :
    handle_auth_callback (fun _ => some w10Url) [9] 0 0 [3] [] emptyStore =
      .ok { id := [9]
            user_id := some (bytes ("user_123"))
            email := some (bytes ("user@example.com"))
            wallet_address := none
            tokens := none
            pkce := none
            state := [2]
            created_at := 0
            expires_at := 86400
            device_info :=
              { device_id := bytes ("desktop")
                device_name := bytes ("Desktop App")
                platform := [3]
                user_agent := none } } :=
  (C10_callback_fabricates_session (fun _ => some w10Url) [9] 0 0 [3] [] emptyStore).2
    w10Url [1] [2] rfl (by decide) (by decide)

/-- C8: `open_auth_url` delegates to the browser opener for every https URL; for http it
delegates only when the host is exactly `localhost` or `127.0.0.1` and fails with
InvalidUrl for any other or missing host; every other scheme and every unparseable URL
fails with InvalidUrl. -/
theorem C8_open_auth_url_scheme_policy (parseUrl : RStr → Option ParsedUrl)
    (opener : RStr → Except AuthError Unit) (url : RStr) :
    (parseUrl url = none →
      open_auth_url parseUrl opener url = .error .invalidUrl) ∧
    (∀ u, parseUrl url = some u →
      ((u.scheme = bytes ("https") →
          open_auth_url parseUrl opener url = opener url) ∧
       (u.scheme = bytes ("http") → ∀ host, u.host = some host →
          (host = bytes ("localhost") ∨ host = bytes ("127.0.0.1")) →
          open_auth_url parseUrl opener url = opener url) ∧
       (u.scheme = bytes ("http") → ∀ host, u.host = some host →
          host ≠ bytes ("localhost") → host ≠ bytes ("127.0.0.1") →
          open_auth_url parseUrl opener url = .error .invalidUrl) ∧
       (u.scheme = bytes ("http") → u.host = none →
          open_auth_url parseUrl opener url = .error .invalidUrl) ∧
       (u.scheme ≠ bytes ("https") → u.scheme ≠ bytes ("http") →
          open_auth_url parseUrl opener url = .error .invalidUrl))) := by
  refine ⟨?_, ?_⟩
  · intro h
    simp [open_auth_url, h]
  · intro u hu
    have hne : bytes ("http") ≠ bytes ("https") := by decide
    refine ⟨?_, ?_, ?_, ?_, ?_⟩
    · intro hs
      simp [open_auth_url, hu, hs]
    · intro hs host hhost hloc
      rcases hloc with hl | hl
      · simp [open_auth_url, hu, hs, hne, hhost, hl]
      · simp [open_auth_url, hu, hs, hne, hhost, hl]
    · intro hs host hhost hl1 hl2
      simp [open_auth_url, hu, hs, hne, hhost, hl1, hl2]
    · intro hs hhost
      simp [open_auth_url, hu, hs, hne, hhost]
    · intro hs1 hs2
      simp [open_auth_url, hu, hs1, hs2]

def w8Url : ParsedUrl :=
  { scheme := bytes ("https"), host := none, path := [], queryPairs := [] }

theorem C8_witness :
    open_auth_url (fun _ => some w8Url) (fun _ => .ok ()) [] = .ok () :=
  ((C8_open_auth_url_scheme_policy (fun _ => some w8Url) (fun _ => .ok ()) []).2
    w8Url rfl).1 rfl

theorem list_ne_exists_getD (k k' : List Nat) (hlen : k.length = k'.length)
    (hne : k ≠ k') : ∃ j, j < k.length ∧ k.getD j 0 ≠ k'.getD j 0 := by
  by_contra hc
  push_neg at hc
  apply hne
  apply List.ext_getElem hlen
  intro i h1 h2
  have := hc i h1
  rw [List.getD_eq_getElem _ _ h1, List.getD_eq_getElem _ _ h2] at this
  exact this

theorem xor_encrypt_twice_getD (data k k' : List Nat) (hk : k ≠ []) (hk' : k' ≠ [])
    (j : Nat) (hj : j < data.length) :
    (xor_encrypt (xor_encrypt data k) k').getD j 0 =
      (data.getD j 0 ^^^ k.getD (j % k.length) 0) ^^^ k'.getD (j % k'.length) 0 := by
  have hlk : ¬ k.length = 0 := by simpa using hk
  have hlk' : ¬ k'.length = 0 := by simpa using hk'
  simp only [xor_encrypt, hlk, hlk', if_neg, if_false, ite_false]
  rw [xorCycle_getD k' 0 j _ (by rw [xorCycle_length]; exact hj)]
  rw [xorCycle_getD k 0 j data hj]
  simp

/-- C1: `store_session_encrypted(s, p)` followed by `retrieve_session_encrypted(s.id, p)`
on the resulting store, with the same manager (hence the same key-derivation salt inside
`deriveKey`), returns `some` of a session equal to `s`. The external primitives appear
as parameters under their round-trip contracts: Argon2 derivation is deterministic with
a nonempty key, base64 decode inverts encode, and deserialization inverts
serialization. -/
theorem C1_store_retrieve_roundtrip
    (serialize : AuthSession → List Nat) (deserialize : List Nat → Option AuthSession)
    (deriveKey : RStr → Except AuthError (List Nat))
    (encode : List Nat → RStr) (decode : RStr → Option (List Nat))
    (st st' : StoreState) (s : AuthSession) (p : RStr) (key : List Nat)
    (hkey : deriveKey p = .ok key) (hknil : key ≠ [])
    (hser : deserialize (serialize s) = some s)
    (hdec : ∀ b, decode (encode b) = some b)
    (hstore : store_session_encrypted serialize deriveKey encode st s p = .ok st') :
    retrieve_session_encrypted deserialize deriveKey decode st' s.id p = .ok (some s) := by
  simp only [store_session_encrypted, hkey] at hstore
  have hst' : storeSet st (sessionKeyOf s.id) (encode (xor_encrypt (serialize s) key))
      = st' := by
    injection hstore
  subst hst'
  simp only [retrieve_session_encrypted, hkey, storeGet_set_self, hdec,
    xor_encrypt_involutive _ _ hknil, hser]

def w1Session : AuthSession :=
  { id := bytes ("sid1")
    user_id := some (bytes ("u1"))
    email := none
    wallet_address := none
    tokens := some { access_token := bytes ("at"), refresh_token := bytes ("rt"),
                     expires_at := 5, token_type := bytes ("Bearer"), scope := none }
    pkce := some { verifier := bytes ("v"), challenge := bytes ("c"),
                   method := bytes ("S256"), expires_at := 9 }
    state := bytes ("st")
    created_at := 1
    expires_at := 7
    device_info := { device_id := bytes ("dev-1"), device_name := bytes ("Test"),
                     platform := bytes ("linux"), user_agent := none } }

def w1Store : StoreState :=
  match store_session_encrypted serializeSession toyDeriveKey idEncode emptyStore
      w1Session (bytes ("dev-1-st")) with
  | .ok st => st
  | .error _ => emptyStore

theorem C1_witness :
    retrieve_session_encrypted deserializeSession toyDeriveKey someDecode w1Store
      w1Session.id (bytes ("dev-1-st")) = .ok (some w1Session) :=
  C1_store_retrieve_roundtrip serializeSession deserializeSession toyDeriveKey idEncode
    someDecode emptyStore w1Store w1Session (bytes ("dev-1-st")) (bytes ("dev-1-st"))
    rfl (by decide) (by decide) (fun b => rfl) rfl

/-- C7: retrieving a stored session with a passphrase that derives a different key never
returns the original plaintext session: the result is an error or a different value.
Hypotheses record the facts of the real system: Argon2 keys for distinct passphrases
have a common fixed length, the serialized session is at least one key long, and the
serialization is canonical (only one byte string deserializes back to `s`). -/
theorem C7_wrong_passphrase_never_returns_original
    (serialize : AuthSession → List Nat) (deserialize : List Nat → Option AuthSession)
    (deriveKey : RStr → Except AuthError (List Nat))
    (encode : List Nat → RStr) (decode : RStr → Option (List Nat))
    (st st' : StoreState) (s : AuthSession) (p p' : RStr) (k k' : List Nat)
    (hk : deriveKey p = .ok k) (hk' : deriveKey p' = .ok k')
    (hne : k ≠ k') (hlen : k.length = k'.length)
    (hdata : k.length ≤ (serialize s).length)
    (hcanon : ∀ d, deserialize d = some s → d = serialize s)
    (hdec : ∀ b, decode (encode b) = some b)
    (hstore : store_session_encrypted serialize deriveKey encode st s p = .ok st') :
    retrieve_session_encrypted deserialize deriveKey decode st' s.id p' ≠
      .ok (some s) := by
  have hknil : k ≠ [] := by
    intro h
    apply hne
    subst h
    have h0 : k'.length = 0 := by simpa using hlen.symm
    exact (List.length_eq_zero.mp h0).symm
  have hk'nil : k' ≠ [] := by
    intro h
    apply hne
    subst h
    have h0 : k.length = 0 := by simpa using hlen
    exact List.length_eq_zero.mp h0
  simp only [store_session_encrypted, hk] at hstore
  have hst' : storeSet st (sessionKeyOf s.id) (encode (xor_encrypt (serialize s) k))
      = st' := by
    injection hstore
  subst hst'
  intro hcontra
  simp only [retrieve_session_encrypted, hk', storeGet_set_self, hdec] at hcontra
  cases hd : deserialize (xor_encrypt (xor_encrypt (serialize s) k) k') with
  | none => rw [hd] at hcontra; exact absurd hcontra (by simp)
  | some ss =>
      rw [hd] at hcontra
      have hss : ss = s := by
        have := hcontra
        simp only [Except.ok.injEq, Option.some.injEq] at this
        exact this
      rw [hss] at hd
      have hfix : xor_encrypt (xor_encrypt (serialize s) k) k' = serialize s :=
        hcanon _ hd
      obtain ⟨j, hjlen, hjne⟩ := list_ne_exists_getD k k' hlen hne
      have hjdata : j < (serialize s).length := lt_of_lt_of_le hjlen hdata
      have hget := xor_encrypt_twice_getD (serialize s) k k' hknil hk'nil j hjdata
      rw [hfix] at hget
      rw [Nat.mod_eq_of_lt hjlen, Nat.mod_eq_of_lt (hlen ▸ hjlen)] at hget
      have h2 : (serialize s).getD j 0 =
          (serialize s).getD j 0 ^^^ (k.getD j 0 ^^^ k'.getD j 0) := by
        rw [← Nat.xor_assoc]
        exact hget
      have h3 : k.getD j 0 ^^^ k'.getD j 0 = 0 := by
        have h4 := congrArg (fun x => (serialize s).getD j 0 ^^^ x) h2
        simpa [Nat.xor_cancel_left] using h4.symm
      exact absurd (Nat.xor_eq_zero.mp h3) hjne

def w7Session : AuthSession :=
  { id := bytes ("sid7")
    user_id := none
    email := none
    wallet_address := none
    tokens := none
    pkce := none
    state := bytes ("s7")
    created_at := 3
    expires_at := 9
    device_info := { device_id := bytes ("dev-7"), device_name := bytes ("T"),
                     platform := bytes ("linux"), user_agent := none } }

/-- Deserializer instance for the C7 witness: accepts exactly the canonical encoding of
`w7Session`, so the canonical-serialization hypothesis holds by construction. -/
def w7Deserialize (d : List Nat) : Option AuthSession :=
  if d = serializeSession w7Session then some w7Session else none

def w7Store : StoreState :=
  match store_session_encrypted serializeSession toyDeriveKey idEncode emptyStore
      w7Session (bytes ("aa")) with
  | .ok st => st
  | .error _ => emptyStore

theorem C7_witness :
    retrieve_session_encrypted w7Deserialize toyDeriveKey someDecode w7Store
      w7Session.id (bytes ("ab")) ≠ .ok (some w7Session) :=
  C7_wrong_passphrase_never_returns_original serializeSession w7Deserialize toyDeriveKey
    idEncode someDecode emptyStore w7Store w7Session (bytes ("aa")) (bytes ("ab"))
    (bytes ("aa")) (bytes ("ab")) rfl rfl (by decide) (by decide) (by decide)
    (fun d h => by
      by_cases hd : d = serializeSession w7Session
      · exact hd
      · simp [w7Deserialize, hd] at h)
    (fun b => rfl) rfl

/-- C4: `generate_auth_session` builds a session carrying the freshly drawn id, an
anti-CSRF state of 32 characters (hence at least 32) drawn from the unreserved charset,
the attached PKCE challenge, no tokens, `created_at` from the first clock reading and
`expires_at` ten minutes after the second (so `expires_at > created_at` under a
monotone clock), and persists it encrypted under the passphrase
`device_id + "-" + state` before returning. -/
theorem C4_generate_auth_session_contract
    (serialize : AuthSession → List Nat) (deriveKey : RStr → Except AuthError (List Nat))
    (encode : List Nat → RStr) (sha256 : RStr → List Nat) (b64url : List Nat → RStr)
    (uuid : RStr) (rngState rngVerifier : Nat → Nat) (nowPkce now1 now2 : Nat)
    (device_info : DeviceInfo) (st st' : StoreState) (sess : AuthSession)
    (hgen : generate_auth_session serialize deriveKey encode sha256 b64url uuid rngState
        rngVerifier nowPkce now1 now2 device_info st = .ok (sess, st')) :
    sess.id = uuid ∧
    32 ≤ sess.state.length ∧
    (∀ c ∈ sess.state, c ∈ CHARSET) ∧
    sess.pkce = some (generate_pkce_challenge sha256 b64url rngVerifier nowPkce) ∧
    sess.tokens = none ∧
    sess.created_at = now1 ∧
    sess.expires_at = now2 + 600 ∧
    (now1 ≤ now2 → sess.created_at < sess.expires_at) ∧
    store_session_encrypted serialize deriveKey encode st sess
      (device_info.device_id ++ bytes ("-") ++ sess.state) = .ok st' := by
  simp only [generate_auth_session] at hgen
  split at hgen
  · exact absurd hgen (by simp)
  · rename_i st2 hst2
    have hpair := hgen
    simp only [Except.ok.injEq, Prod.mk.injEq] at hpair
    obtain ⟨hsess, hst'⟩ := hpair
    subst hst'
    refine ⟨?_, ?_, ?_, ?_, ?_, ?_, ?_, ?_, ?_⟩
    · rw [← hsess]
    · rw [← hsess]
      simp [generate_secure_random_string_length]
    · rw [← hsess]
      exact generate_secure_random_string_mem 32 rngState
    · rw [← hsess]
    · rw [← hsess]
    · rw [← hsess]
    · rw [← hsess]
    · intro hmono
      rw [← hsess]
      simp only
      omega
    · rw [← hsess]
      exact hst2

def w4Device : DeviceInfo :=
  { device_id := bytes ("dev-1"), device_name := bytes ("Test"),
    platform := bytes ("linux"), user_agent := none }

def w4Result : AuthSession × StoreState :=
  match generate_auth_session serializeSession toyDeriveKey idEncode (fun l => l)
      (fun l => l) (bytes ("uuid-1")) (fun _ => 0) (fun _ => 1) 50 100 100 w4Device
      emptyStore with
  | .ok r => r
  | .error _ => (default, emptyStore)

theorem C4_witness :
    w4Result.1.id = bytes ("uuid-1") ∧
    32 ≤ w4Result.1.state.length ∧
    (∀ c ∈ w4Result.1.state, c ∈ CHARSET) ∧
    w4Result.1.pkce =
      some (generate_pkce_challenge (fun l => l) (fun l => l) (fun _ => 1) 50) ∧
    w4Result.1.tokens = none ∧
    w4Result.1.created_at = 100 ∧
    w4Result.1.expires_at = 100 + 600 ∧
    (100 ≤ 100 → w4Result.1.created_at < w4Result.1.expires_at) ∧
    store_session_encrypted serializeSession toyDeriveKey idEncode emptyStore w4Result.1
      (w4Device.device_id ++ bytes ("-") ++ w4Result.1.state) = .ok w4Result.2 :=
  C4_generate_auth_session_contract serializeSession toyDeriveKey idEncode (fun l => l)
    (fun l => l) (bytes ("uuid-1")) (fun _ => 0) (fun _ => 1) 50 100 100 w4Device
    emptyStore w4Result.2 w4Result.1 rfl

def w2Session : AuthSession :=
  { id := [7]
    user_id := none
    email := none
    wallet_address := none
    tokens := none
    pkce := none
    state := [1]
    created_at := 0
    expires_at := 0
    device_info := { device_id := [2], device_name := [], platform := [],
                     user_agent := none } }

def w2Store : StoreState :=
  match store_session_encrypted serializeSession toyDeriveKey idEncode emptyStore
      w2Session ([2] ++ bytes ("-") ++ [1]) with
  | .ok st => st
  | .error _ => emptyStore

/-- C2: evidence against the claim on the code as written — a session whose
`expires_at` (0) is long past the current time (1000) is still returned as a valid
`some` session by `get_auth_session`: the retrieval path of auth.rs performs no expiry
check at all. -/
theorem C2_expired_session_returned_as_valid :
    get_auth_session deserializeSession toyDeriveKey someDecode w2Store [7] [2] [1] =
      .ok (some w2Session) ∧ w2Session.expires_at < 1000 := by
  constructor
  · rfl
  · decide
